import Mathlib

/-!
Verification of the Barto-MCP iterative generate/evaluate workflow core.

This file shallowly embeds the TypeScript source of the repository:
JavaScript numbers are modelled as exact rationals (`ℚ`); where a
numeric literal's IEEE-754 binary64 value differs from its decimal
reading and the difference is observable, the exact binary64 value is
used and documented.  Asynchronous remote calls (LLM completions,
JSON.parse, regex engine, Redis, wall clock, Math.random) are oracle
parameters; everything that is code of the repository is embedded
concretely.
-/

namespace Barto

/-- Feedback produced by the discriminator
(`DiscriminatorFeedbackSchema` in `schemas/workflow.schema.ts`):
`passed` boolean, `score` number in [0,1], `issues` string list,
`suggestions` string, optional `reasoning`. -/
structure DiscriminatorFeedback where
  passed : Bool
  score : ℚ
  issues : List String
  suggestions : String
  reasoning : Option String
deriving Repr, DecidableEq

/-- One recorded iteration (`IterationStateSchema`): iteration number,
generator output and discriminator feedback.  `durationMs`, `timestamp`
and `tokensUsed` are wall-clock / usage metadata read from `Date.now()`
and provider responses; they influence no control flow and are omitted
from the embedding. -/
structure IterationState where
  number : Nat
  generatorOutput : String
  feedback : DiscriminatorFeedback
deriving Repr, DecidableEq

/-- The `StopReason` union type from `shared/types/index.ts`. -/
inductive StopReason where
  | threshold_reached
  | max_iterations
  | stagnation
  | error
  | cancelled
  | early_termination
deriving Repr, DecidableEq

/-- `StopConditionResult` from `stop-condition.interface.ts`. -/
structure StopConditionResult where
  shouldStop : Bool
  reason : Option StopReason
  message : Option String
deriving Repr, DecidableEq

/-- `StopConditionContext` from `stop-condition.interface.ts`. -/
structure StopConditionContext where
  currentIteration : Nat
  maxIterations : Nat
  scoreThreshold : ℚ
  iterations : List IterationState
  currentScore : ℚ
  currentPassed : Bool
deriving Repr, DecidableEq

/-- A stop condition (`StopCondition` interface): a name and an
`evaluate` function. -/
structure StopCondition where
  name : String
  evaluate : StopConditionContext → StopConditionResult

/-- `ThresholdStopCondition.evaluate` from `threshold.condition.ts`:
stop iff `currentPassed && currentScore >= scoreThreshold`.  The
`message` string interpolates the percentages via `toFixed`; its text
carries no control information and is embedded as a fixed marker. -/
def thresholdEvaluate (context : StopConditionContext) : StopConditionResult :=
  if context.currentPassed && decide (context.currentScore ≥ context.scoreThreshold) then
    { shouldStop := true
      reason := some .threshold_reached
      message := some "Score meets threshold" }
  else
    { shouldStop := false, reason := none, message := none }

/-- The threshold stop condition with its source name `"threshold"`. -/
def thresholdCondition : StopCondition :=
  { name := "threshold", evaluate := thresholdEvaluate }

/-- `MaxIterationsStopCondition.evaluate` from
`max-iterations.condition.ts`: stop iff
`currentIteration >= maxIterations`. -/
def maxIterationsEvaluate (context : StopConditionContext) : StopConditionResult :=
  if context.currentIteration ≥ context.maxIterations then
    { shouldStop := true
      reason := some .max_iterations
      message := some "Reached maximum iterations" }
  else
    { shouldStop := false, reason := none, message := none }

/-- The max-iterations stop condition with its source name. -/
def maxIterationsCondition : StopCondition :=
  { name := "max_iterations", evaluate := maxIterationsEvaluate }

/-- `StagnationStopCondition.evaluate` from `stagnation.condition.ts`,
parameterised by the constructor configuration
(`maxStagnantIterations`, `improvementThreshold`).  `slice(-n-1)` on a
list of length ≥ n+1 keeps the last n+1 elements, embedded as
`List.drop (length - (n+1))`; `recentScores[0]` is `List.head?` (the
source's `undefined` guard is the `none` branch); `slice(1).some p` is
`List.any` on the tail. -/
def stagnationEvaluate (maxStagnantIterations : Nat) (improvementThreshold : ℚ)
    (context : StopConditionContext) : StopConditionResult :=
  let iterations := context.iterations
  if iterations.length < maxStagnantIterations + 1 then
    { shouldStop := false, reason := none, message := none }
  else
    let recentIterations := iterations.drop (iterations.length - (maxStagnantIterations + 1))
    let recentScores := recentIterations.map (fun iter => iter.feedback.score)
    match recentScores.head? with
    | none => { shouldStop := false, reason := none, message := none }
    | some baselineScore =>
      let hasImprovement :=
        (recentScores.drop 1).any (fun score =>
          decide (score - baselineScore > improvementThreshold))
      if !hasImprovement then
        { shouldStop := true
          reason := some .stagnation
          message := some "No significant improvement" }
      else
        { shouldStop := false, reason := none, message := none }

/-- The exact binary64 value of the JavaScript literal `0.01`
(the default `improvementThreshold` in `stagnation.condition.ts`):
`0.01` is not representable in binary64; the nearest double is
5764607523034235 · 2⁻⁵⁹ ≈ 0.010000000000000000208. -/
def dbl001 : ℚ := 5764607523034235 / 2 ^ 59

/-- The stagnation stop condition with the source constructor defaults
(`maxStagnantIterations = 3`, `improvementThreshold = 0.01` as a
binary64 double). -/
def stagnationCondition : StopCondition :=
  { name := "stagnation", evaluate := stagnationEvaluate 3 dbl001 }

/-- The exact binary64 value of the JavaScript literal `0.1`
(default `scoreThreshold` in `early-termination.condition.ts`):
3602879701896397 · 2⁻⁵⁵. -/
def dbl01 : ℚ := 3602879701896397 / 2 ^ 55

/-- `EarlyTerminationStopCondition.evaluate` from
`early-termination.condition.ts`, parameterised by the constructor
configuration. -/
def earlyTerminationEvaluate (scoreThreshold : ℚ) (minIterations : Nat)
    (context : StopConditionContext) : StopConditionResult :=
  if context.currentIteration < minIterations then
    { shouldStop := false, reason := none, message := none }
  else if context.currentScore < scoreThreshold then
    { shouldStop := true
      reason := some .early_termination
      message := some "Score is below minimum threshold" }
  else
    { shouldStop := false, reason := none, message := none }

/-- The early-termination stop condition with the source defaults
(`scoreThreshold = 0.1` as a binary64 double, `minIterations = 2`). -/
def earlyTerminationCondition : StopCondition :=
  { name := "early_termination", evaluate := earlyTerminationEvaluate dbl01 2 }

/-- `CompositeStopCondition.evaluate` from `composite.condition.ts`:
evaluate the conditions in order, first `shouldStop` wins, and the
winning result's message is prefixed with the condition's name. -/
def compositeEvaluate : List StopCondition → StopConditionContext → StopConditionResult
  | [], _ => { shouldStop := false, reason := none, message := none }
  | condition :: rest, context =>
    let result := condition.evaluate context
    if result.shouldStop then
      { result with
        message := some ("[" ++ condition.name ++ "] " ++ result.message.getD "") }
    else
      compositeEvaluate rest context

/-- `createDefaultStopConditions` with default configuration: threshold,
max-iterations, stagnation and early-termination, in that order. -/
def defaultStopConditions : List StopCondition :=
  [thresholdCondition, maxIterationsCondition, stagnationCondition, earlyTerminationCondition]

/-- The default composite stop condition used by the orchestrator when
no custom condition is supplied. -/
def defaultComposite : StopCondition :=
  { name := "composite", evaluate := compositeEvaluate defaultStopConditions }

/-- Internal state of `RalphOrchestrator.execute` when the `for` loop
finishes: the recorded iterations, the `stopReason` variable, the
`lastFeedback` and `currentOutput` variables, and (for reasoning about
the break) the `StopConditionResult` that triggered the break, if
any. -/
structure LoopResult where
  iterations : List IterationState
  stopReason : StopReason
  lastFeedback : Option DiscriminatorFeedback
  currentOutput : String
  firedResult : Option StopConditionResult
deriving Repr

/-- The body of `RalphOrchestrator.execute`'s
`for (let iteration = 1; iteration <= maxIterations; iteration++)` loop
(`ralph.orchestrator.ts`).  The generator run is the oracle
`gen previousFeedback iterationNumber` (the task is fixed for the whole
execution) and the discriminator run is the oracle `disc output`
(criteria and task fixed).  `fuel` counts the iterations still allowed;
the loop is entered with `fuel = maxIterations` and `iteration = 1`, so
`fuel = 0` is exactly `iteration > maxIterations`, where the loop exits
with the initial `stopReason = "max_iterations"` still in place. -/
def executeGo (gen : Option DiscriminatorFeedback → Nat → String)
    (disc : String → DiscriminatorFeedback) (stop : StopCondition)
    (maxIterations : Nat) (scoreThreshold : ℚ) :
    Nat → Nat → List IterationState → Option DiscriminatorFeedback → String → LoopResult
  | 0, _, acc, lastFeedback, currentOutput =>
    { iterations := acc
      stopReason := .max_iterations
      lastFeedback := lastFeedback
      currentOutput := currentOutput
      firedResult := none }
  | fuel + 1, iteration, acc, lastFeedback, _ =>
    let output := gen lastFeedback iteration
    let feedback := disc output
    let iterationState : IterationState :=
      { number := iteration, generatorOutput := output, feedback := feedback }
    let acc' := acc ++ [iterationState]
    let stopContext : StopConditionContext :=
      { currentIteration := iteration
        maxIterations := maxIterations
        scoreThreshold := scoreThreshold
        iterations := acc'
        currentScore := feedback.score
        currentPassed := feedback.passed }
    let stopResult := stop.evaluate stopContext
    if stopResult.shouldStop then
      { iterations := acc'
        stopReason := stopResult.reason.getD .threshold_reached
        lastFeedback := some feedback
        currentOutput := output
        firedResult := some stopResult }
    else
      executeGo gen disc stop maxIterations scoreThreshold fuel (iteration + 1) acc'
        (some feedback) output

/-- `RalphOrchestrator.execute`'s loop from its initial state:
`iterations = []`, `currentOutput = ""`, `lastFeedback = null`,
`stopReason = "max_iterations"`. -/
def executeLoop (gen : Option DiscriminatorFeedback → Nat → String)
    (disc : String → DiscriminatorFeedback) (stop : StopCondition)
    (maxIterations : Nat) (scoreThreshold : ℚ) : LoopResult :=
  executeGo gen disc stop maxIterations scoreThreshold maxIterations 1 [] none ""

/-- The `WorkflowResult` assembled by `RalphOrchestrator.execute` after
the loop (`workflowId` and `totalDurationMs` are a fresh UUID and wall
clock, omitted). -/
structure WorkflowResult where
  success : Bool
  output : String
  iterations : Nat
  finalScore : ℚ
  reason : StopReason
  iterationHistory : List IterationState
deriving Repr

/-- `RalphOrchestrator.execute` (happy path, no stage error):
`success = (stopReason === "threshold_reached")`,
`finalScore = lastFeedback?.score ?? 0`, full history returned. -/
def execute (gen : Option DiscriminatorFeedback → Nat → String)
    (disc : String → DiscriminatorFeedback) (stop : StopCondition)
    (maxIterations : Nat) (scoreThreshold : ℚ) : WorkflowResult :=
  let lr := executeLoop gen disc stop maxIterations scoreThreshold
  { success := decide (lr.stopReason = .threshold_reached)
    output := lr.currentOutput
    iterations := lr.iterations.length
    finalScore := (lr.lastFeedback.map (fun f => f.score)).getD 0
    reason := lr.stopReason
    iterationHistory := lr.iterations }

/-- The scores of the trailing window examined by the stagnation
condition: the last `N + 1` recorded feedback scores (the `slice` and
`map` of `stagnation.condition.ts`). -/
def recentWindowScores (N : Nat) (context : StopConditionContext) : List ℚ :=
  ((context.iterations.drop (context.iterations.length - (N + 1))).map
    (fun iter => iter.feedback.score))

/-- Build an iteration record carrying only a feedback score (the other
fields do not influence the stop conditions). -/
def iterWithScore (n : Nat) (s : ℚ) : IterationState :=
  { number := n
    generatorOutput := ""
    feedback := { passed := false, score := s, issues := [], suggestions := "", reasoning := none } }

/-- Exact binary64 value of the JavaScript literal `0.5` (exactly
representable). -/
def dbl05 : ℚ := 1 / 2

/-- Exact binary64 value of the JavaScript literal `0.51`:
4593671619917906 · 2⁻⁵³ ≈ 0.51000000000000000888. -/
def dbl051 : ℚ := 4593671619917906 / 2 ^ 53

/-- Exact binary64 value of the JavaScript literal `0.505`:
4548635623644201 · 2⁻⁵³. -/
def dbl0505 : ℚ := 4548635623644201 / 2 ^ 53

/-- Exact binary64 value of the JavaScript literal `0.509`:
4584664420663165 · 2⁻⁵³. -/
def dbl0509 : ℚ := 4584664420663165 / 2 ^ 53

/-- Exact binary64 value of the JavaScript literal `0.62`:
5584463537939415 · 2⁻⁵³. -/
def dbl062 : ℚ := 5584463537939415 / 2 ^ 53

/-- Stop-condition context holding the score history
[0.50, 0.51, 0.505, 0.509] exactly as the program represents these
literals (binary64).  All four scores lie in [1/2, 1), so they and
their pairwise differences are exact multiples of 2⁻⁵³ and every
subtraction `score - baseline` performed by
`stagnation.condition.ts` is exact in binary64: the rational model
computes precisely what the JavaScript code computes on them. -/
def stagnationCtxA : StopConditionContext :=
  { currentIteration := 4
    maxIterations := 10
    scoreThreshold := 1
    iterations :=
      [iterWithScore 1 dbl05, iterWithScore 2 dbl051,
       iterWithScore 3 dbl0505, iterWithScore 4 dbl0509]
    currentScore := dbl0509
    currentPassed := false }

/-- Stop-condition context holding the score history
[0.50, 0.50, 0.50, 0.62] at the exact binary64 values of those
literals (subtractions again exact). -/
def stagnationCtxB : StopConditionContext :=
  { currentIteration := 4
    maxIterations := 10
    scoreThreshold := 1
    iterations :=
      [iterWithScore 1 dbl05, iterWithScore 2 dbl05,
       iterWithScore 3 dbl05, iterWithScore 4 dbl062]
    currentScore := dbl062
    currentPassed := false }

/-- C1: the Threshold stop condition stops iff `currentPassed` is true
and `currentScore ≥ scoreThreshold`; in particular any context with
`passed = false` — such as score 0.9, passed false, threshold 0.7 —
does not stop. -/
theorem threshold_stop_iff :
    (∀ ctx : StopConditionContext,
      (thresholdEvaluate ctx).shouldStop = true ↔
        (ctx.currentPassed = true ∧ ctx.currentScore ≥ ctx.scoreThreshold)) ∧
    (∀ ctx : StopConditionContext,
      ctx.currentScore = 9 / 10 → ctx.currentPassed = false → ctx.scoreThreshold = 7 / 10 →
      (thresholdEvaluate ctx).shouldStop = false) := by
  constructor
  · intro ctx
    unfold thresholdEvaluate
    by_cases hp : ctx.currentPassed = true
    · by_cases hge : ctx.currentScore ≥ ctx.scoreThreshold
      · simp [hp, hge]
      · simp [hp, hge]
    · have hpf : ctx.currentPassed = false := Bool.eq_false_iff.mpr hp
      simp [hpf]
  · intro ctx _ hp _
    unfold thresholdEvaluate
    simp [hp]

/-- Witness for `threshold_stop_iff`: at a concrete context with score
0.9, passed false, threshold 0.7, the condition does not stop. -/
theorem threshold_stop_iff_witness :
    (thresholdEvaluate
      { currentIteration := 1, maxIterations := 5, scoreThreshold := 7 / 10,
        iterations := [], currentScore := 9 / 10, currentPassed := false }).shouldStop
      = false :=
  threshold_stop_iff.2
    { currentIteration := 1, maxIterations := 5, scoreThreshold := 7 / 10,
      iterations := [], currentScore := 9 / 10, currentPassed := false }
    rfl rfl rfl

/-- C2 counterexample: the claim asserts that the score history
[0.50, 0.51, 0.505, 0.509] makes the stagnation condition (window 3,
improvement threshold 0.01) stop.  It does not: JavaScript number
literals are binary64 doubles, `0.51 - 0.50` evaluates exactly to
90071992547410 · 2⁻⁵³ ≈ 0.010000000000000009, which is strictly
greater than the double `0.01` ≈ 0.010000000000000000208, so the
second score counts as an improvement over the baseline and
`shouldStop` is `false` at the source defaults. -/
theorem stagnation_example_counterexample :
    (stagnationEvaluate 3 dbl001 stagnationCtxA).shouldStop = false := by
  have h1 : dbl051 - dbl05 > dbl001 := by
    unfold dbl051 dbl05 dbl001; norm_num
  simp [stagnationEvaluate, stagnationCtxA, iterWithScore, h1]

/-- C2 (amended): with fewer than N+1 recorded iterations the
stagnation condition does not stop; with at least N+1 it stops iff no
score in the trailing window improves on the window's oldest score by
strictly more than the threshold.  At the program's binary64 literal
values, the history [0.50, 0.51, 0.505, 0.509] does NOT stop (because
0.51 − 0.50 > 0.01 in binary64) and [0.50, 0.50, 0.50, 0.62] does not
stop either. -/
theorem stagnation_stop_characterisation :
    (∀ (N : Nat) (t : ℚ) (ctx : StopConditionContext),
      (ctx.iterations.length < N + 1 →
        (stagnationEvaluate N t ctx).shouldStop = false) ∧
      (∀ b : ℚ, N + 1 ≤ ctx.iterations.length →
        (recentWindowScores N ctx).head? = some b →
        ((stagnationEvaluate N t ctx).shouldStop = true ↔
          ∀ s ∈ (recentWindowScores N ctx).drop 1, s - b ≤ t))) ∧
    (stagnationEvaluate 3 dbl001 stagnationCtxA).shouldStop = false ∧
    (stagnationEvaluate 3 dbl001 stagnationCtxB).shouldStop = false := by
  refine ⟨fun N t ctx => ⟨fun hlt => ?_, fun b hlen hhead => ?_⟩, ?_, ?_⟩
  · unfold stagnationEvaluate
    simp [hlt]
  · have hw : recentWindowScores N ctx =
        (ctx.iterations.drop (ctx.iterations.length - (N + 1))).map
          (fun iter => iter.feedback.score) := rfl
    rw [hw] at hhead
    unfold stagnationEvaluate
    rw [if_neg (by omega)]
    rw [hw]
    simp only [hhead]
    cases hany : ((ctx.iterations.drop (ctx.iterations.length - (N + 1))).map
        (fun iter => iter.feedback.score)).drop 1 |>.any
          (fun score => decide (score - b > t)) with
    | true =>
      rcases List.any_eq_true.mp hany with ⟨s, hs, hp⟩
      have hgt : s - b > t := of_decide_eq_true hp
      simp only [hany, Bool.not_true, Bool.false_eq_true, if_false]
      simp only [false_iff]
      push_neg
      exact ⟨s, hs, by linarith⟩
    | false =>
      simp only [hany, Bool.not_false, if_true]
      simp only [true_iff]
      intro s hs
      have := List.any_eq_false.mp hany s hs
      simp only [decide_eq_true_eq] at this
      linarith
  · have h1 : dbl051 - dbl05 > dbl001 := by
      unfold dbl051 dbl05 dbl001; norm_num
    simp [stagnationEvaluate, stagnationCtxA, iterWithScore, h1]
  · have h0 : ¬(dbl05 - dbl05 > dbl001) := by
      unfold dbl05 dbl001; norm_num
    have h2 : dbl062 - dbl05 > dbl001 := by
      unfold dbl062 dbl05 dbl001; norm_num
    simp [stagnationEvaluate, stagnationCtxB, iterWithScore, h0, h2]

/-- Witness for `stagnation_stop_characterisation`: both hypothesis-
bearing parts applied at concrete inputs (a 1-iteration history is too
short for window 3; a 2-iteration constant history stops for window 1,
threshold 0). -/
theorem stagnation_stop_characterisation_witness :
    ((stagnationEvaluate 3 dbl001
      { currentIteration := 1, maxIterations := 10, scoreThreshold := 1,
        iterations := [iterWithScore 1 dbl05], currentScore := dbl05,
        currentPassed := false }).shouldStop = false) ∧
    ((stagnationEvaluate 1 0
      { currentIteration := 2, maxIterations := 10, scoreThreshold := 1,
        iterations := [iterWithScore 1 dbl05, iterWithScore 2 dbl05],
        currentScore := dbl05, currentPassed := false }).shouldStop = true ↔
      ∀ s ∈ (recentWindowScores 1
        { currentIteration := 2, maxIterations := 10, scoreThreshold := 1,
          iterations := [iterWithScore 1 dbl05, iterWithScore 2 dbl05],
          currentScore := dbl05, currentPassed := false }).drop 1, s - dbl05 ≤ 0) :=
  ⟨(stagnation_stop_characterisation.1 3 dbl001
      { currentIteration := 1, maxIterations := 10, scoreThreshold := 1,
        iterations := [iterWithScore 1 dbl05], currentScore := dbl05,
        currentPassed := false }).1 (by decide),
   (stagnation_stop_characterisation.1 1 0
      { currentIteration := 2, maxIterations := 10, scoreThreshold := 1,
        iterations := [iterWithScore 1 dbl05, iterWithScore 2 dbl05],
        currentScore := dbl05, currentPassed := false }).2 dbl05 (by decide) rfl⟩

/-- A history list is numbered 1..length with no gaps. -/
def numbered (l : List IterationState) : Prop :=
  ∀ i (hi : i < l.length), l[i].number = i + 1

theorem numbered_append {l : List IterationState} {st : IterationState}
    (hl : numbered l) (hst : st.number = l.length + 1) : numbered (l ++ [st]) := by
  intro i hi
  rcases Nat.lt_or_ge i l.length with hlt | hge
  · rw [List.getElem_append_left hlt]
    exact hl i hlt
  · have hieq : i = l.length := by
      rw [List.length_append, List.length_singleton] at hi
      omega
    subst hieq
    have hget : (l ++ [st])[l.length] = st := by simp
    rw [hget, hst]

theorem executeGo_history (gen : Option DiscriminatorFeedback → Nat → String)
    (disc : String → DiscriminatorFeedback) (stop : StopCondition)
    (maxIterations : Nat) (scoreThreshold : ℚ) :
    ∀ (fuel : Nat) (acc : List IterationState)
      (lastFeedback : Option DiscriminatorFeedback) (currentOutput : String),
      numbered acc →
      numbered (executeGo gen disc stop maxIterations scoreThreshold fuel
        (acc.length + 1) acc lastFeedback currentOutput).iterations ∧
      (executeGo gen disc stop maxIterations scoreThreshold fuel
        (acc.length + 1) acc lastFeedback currentOutput).iterations.length ≤
        acc.length + fuel := by
  intro fuel
  induction fuel with
  | zero =>
    intro acc lastFeedback currentOutput hacc
    exact ⟨hacc, by simp [executeGo]⟩
  | succ n ih =>
    intro acc lastFeedback currentOutput hacc
    rw [executeGo]
    set output := gen lastFeedback (acc.length + 1) with houtput
    set feedback := disc output with hfeedback
    set st : IterationState :=
      { number := acc.length + 1, generatorOutput := output, feedback := feedback } with hst
    have hacc' : numbered (acc ++ [st]) := numbered_append hacc rfl
    by_cases hstop : (stop.evaluate
      { currentIteration := acc.length + 1
        maxIterations := maxIterations
        scoreThreshold := scoreThreshold
        iterations := acc ++ [st]
        currentScore := feedback.score
        currentPassed := feedback.passed }).shouldStop = true
    · rw [if_pos hstop]
      refine ⟨hacc', ?_⟩
      simp only [List.length_append, List.length_singleton]
      omega
    · rw [if_neg hstop]
      have hlen : (acc ++ [st]).length + 1 = acc.length + 1 + 1 := by simp
      have := ih (acc ++ [st]) (some feedback) output hacc'
      rw [hlen] at this
      refine ⟨this.1, ?_⟩
      have h2 := this.2
      simp only [List.length_append, List.length_singleton] at h2 ⊢
      omega

/-- C3: the history returned by `RalphOrchestrator.execute` is numbered
exactly 1..N with no gaps, N never exceeds `maxIterations`, and no
recorded iteration carries a number above `maxIterations` (so with
`maxIterations = 3` no 4th iteration is ever recorded). -/
theorem execute_history_numbering
    (gen : Option DiscriminatorFeedback → Nat → String)
    (disc : String → DiscriminatorFeedback) (stop : StopCondition)
    (maxIterations : Nat) (scoreThreshold : ℚ)
    (hmax : 1 ≤ maxIterations) :
    numbered (execute gen disc stop maxIterations scoreThreshold).iterationHistory ∧
    (execute gen disc stop maxIterations scoreThreshold).iterationHistory.length ≤
      maxIterations ∧
    ∀ rec ∈ (execute gen disc stop maxIterations scoreThreshold).iterationHistory,
      rec.number ≤ maxIterations := by
  have h := executeGo_history gen disc stop maxIterations scoreThreshold maxIterations
    [] none "" (fun i hi => absurd hi (by simp))
  have hhist : (execute gen disc stop maxIterations scoreThreshold).iterationHistory =
      (executeGo gen disc stop maxIterations scoreThreshold maxIterations 1 [] none
        "").iterations := rfl
  rw [hhist]
  simp only [List.length_nil, Nat.zero_add] at h
  refine ⟨h.1, h.2, ?_⟩
  intro rec hrec
  rcases List.mem_iff_getElem.mp hrec with ⟨i, hi, hget⟩
  have hnum := h.1 i hi
  rw [hget] at hnum
  omega

/-- Witness for `execute_history_numbering` at `maxIterations = 3` with
trivial oracles and the default composite condition: the history is
numbered with no gaps, at most 3 long, and contains no 4th iteration. -/
theorem execute_history_numbering_witness :
    numbered (execute (fun _ _ => "") (fun _ => ⟨false, 0, [], "", none⟩)
      defaultComposite 3 1).iterationHistory ∧
    (execute (fun _ _ => "") (fun _ => ⟨false, 0, [], "", none⟩)
      defaultComposite 3 1).iterationHistory.length ≤ 3 ∧
    ∀ rec ∈ (execute (fun _ _ => "") (fun _ => ⟨false, 0, [], "", none⟩)
      defaultComposite 3 1).iterationHistory, rec.number ≤ 3 :=
  execute_history_numbering (fun _ _ => "") (fun _ => ⟨false, 0, [], "", none⟩)
    defaultComposite 3 1 (by omega)

theorem executeGo_fired (gen : Option DiscriminatorFeedback → Nat → String)
    (disc : String → DiscriminatorFeedback) (stop : StopCondition)
    (maxIterations : Nat) (scoreThreshold : ℚ) :
    ∀ (fuel iteration : Nat) (acc : List IterationState)
      (lastFeedback : Option DiscriminatorFeedback) (currentOutput : String)
      (r : StopConditionResult),
      (executeGo gen disc stop maxIterations scoreThreshold fuel iteration acc
        lastFeedback currentOutput).firedResult = some r →
      (executeGo gen disc stop maxIterations scoreThreshold fuel iteration acc
        lastFeedback currentOutput).stopReason = r.reason.getD .threshold_reached := by
  intro fuel
  induction fuel with
  | zero =>
    intro iteration acc lastFeedback currentOutput r hr
    simp [executeGo] at hr
  | succ n ih =>
    intro iteration acc lastFeedback currentOutput r hr
    rw [executeGo] at hr ⊢
    split at hr
    · next hstop =>
      rw [if_pos hstop]
      simp only [Option.some.injEq] at hr
      rw [← hr]
    · next hstop =>
      rw [if_neg hstop]
      exact ih _ _ _ _ r hr

/-- C10: if the stop condition that fires reports `shouldStop = true`
with its `reason` field absent, the orchestrator records the stop
reason as `threshold_reached` (`stopResult.reason ?? "threshold_reached"`)
and therefore reports `success = true`. -/
theorem execute_missing_reason_is_success
    (gen : Option DiscriminatorFeedback → Nat → String)
    (disc : String → DiscriminatorFeedback) (stop : StopCondition)
    (maxIterations : Nat) (scoreThreshold : ℚ) (r : StopConditionResult)
    (hfired : (executeLoop gen disc stop maxIterations scoreThreshold).firedResult = some r)
    (hnone : r.reason = none) :
    (execute gen disc stop maxIterations scoreThreshold).reason = .threshold_reached ∧
    (execute gen disc stop maxIterations scoreThreshold).success = true := by
  have h := executeGo_fired gen disc stop maxIterations scoreThreshold maxIterations 1
    [] none "" r hfired
  rw [hnone] at h
  have hreason : (execute gen disc stop maxIterations scoreThreshold).reason =
      (executeLoop gen disc stop maxIterations scoreThreshold).stopReason := rfl
  have hsuccess : (execute gen disc stop maxIterations scoreThreshold).success =
      decide ((executeLoop gen disc stop maxIterations scoreThreshold).stopReason =
        .threshold_reached) := rfl
  have hloop : (executeLoop gen disc stop maxIterations scoreThreshold).stopReason =
      (executeGo gen disc stop maxIterations scoreThreshold maxIterations 1 [] none
        "").stopReason := rfl
  rw [hreason, hsuccess, hloop, h]
  exact ⟨by simp, by simp⟩

/-- A stop condition that always stops without giving a reason (used to
witness the missing-reason default). -/
def alwaysStopNoReason : StopCondition :=
  { name := "always_stop", evaluate := fun _ => ⟨true, none, none⟩ }

/-- Witness for `execute_missing_reason_is_success`: under a condition
that stops with no reason, the concrete run reports reason
`threshold_reached` and `success = true`. -/
theorem execute_missing_reason_is_success_witness :
    (execute (fun _ _ => "") (fun _ => ⟨false, 0, [], "", none⟩)
      alwaysStopNoReason 1 1).reason = .threshold_reached ∧
    (execute (fun _ _ => "") (fun _ => ⟨false, 0, [], "", none⟩)
      alwaysStopNoReason 1 1).success = true :=
  execute_missing_reason_is_success (fun _ _ => "") (fun _ => ⟨false, 0, [], "", none⟩)
    alwaysStopNoReason 1 1 ⟨true, none, none⟩ rfl rfl

/-- A thrown JavaScript error value as `retry.ts` observes it: the
`Error` message (empty for non-`Error` throwables, which match none of
the message tests) and the `status ?? statusCode` field when present. -/
structure JsError where
  message : String
  status : Option Nat
deriving Repr, DecidableEq

/-- `String.prototype.includes`: substring (contiguous infix) test,
on character lists. -/
def hasSubstring (s : List Char) (sub : String) : Bool :=
  decide (sub.toList <:+: s)

/-- `message.toLowerCase()` as a character list (ASCII lowering; the
message fragments compared against are all ASCII). -/
def lowerChars (s : String) : List Char :=
  s.toList.map Char.toLower

/-- `defaultShouldRetry` from `retry.ts`: retry on network-class,
rate-limit, server-error and timeout message fragments (on the
lower-cased message), otherwise on `status == 429 || status >= 500`
when a status code is present, otherwise do not retry. -/
def defaultShouldRetry (error : JsError) (_attempt : Nat) : Bool :=
  let m := lowerChars error.message
  if hasSubstring m "econnrefused" || hasSubstring m "etimedout" ||
      hasSubstring m "enotfound" || hasSubstring m "network" ||
      hasSubstring m "socket" then true
  else if hasSubstring m "rate limit" || hasSubstring m "429" then true
  else if hasSubstring m "500" || hasSubstring m "502" || hasSubstring m "503" then true
  else if hasSubstring m "timeout" then true
  else
    match error.status with
    | some statusCode => statusCode == 429 || decide (statusCode ≥ 500)
    | none => false

/-- `RetryOptions` from `retry.ts` after merging with
`DEFAULT_OPTIONS` (every field resolved). -/
structure RetryOptions where
  maxAttempts : Nat
  initialDelayMs : ℚ
  maxDelayMs : ℚ
  backoffMultiplier : ℚ
  jitter : Bool
deriving Repr, DecidableEq

/-- `DEFAULT_OPTIONS` from `retry.ts`. -/
def DEFAULT_OPTIONS : RetryOptions :=
  { maxAttempts := 3, initialDelayMs := 1000, maxDelayMs := 30000,
    backoffMultiplier := 2, jitter := true }

/-- `calculateDelay` from `retry.ts`.  `r` is the `Math.random()` draw
made by this call (in [0,1)); `Math.floor` is `Int.floor`. -/
def calculateDelay (attempt : Nat) (options : RetryOptions) (r : ℚ) : ℤ :=
  let exponentialDelay := options.initialDelayMs * options.backoffMultiplier ^ (attempt - 1)
  let cappedDelay := min exponentialDelay options.maxDelayMs
  if options.jitter then
    let jitterRange := cappedDelay * r
    ⌊cappedDelay + jitterRange⌋
  else
    ⌊cappedDelay⌋

/-- The `for (attempt = 1; attempt <= maxAttempts; attempt++)` loop of
`retry` in `retry.ts`.  `fn attempt` is the wrapped call's outcome on
that attempt; `onRetry e a d = some ex` means the callback, invoked
with `(error, attempt, delayMs)`, itself throws `ex` — since the source
invokes it inside the `catch` block with no inner try, that exception
propagates out of `retry`.  The second component of the result is the
list of `(error, attemptNumber, delayMs)` arguments the callback was
invoked with, in order.  `fuel` counts the attempts still allowed
(entered with `fuel = maxAttempts`, `attempt = 1`); the `fuel = 0` exit
is the source's unreachable post-loop `throw lastError` (reachable only
for `maxAttempts = 0`, where `lastError` is still `undefined`). -/
def retryGo {α : Type} (fn : Nat → Except JsError α)
    (shouldRetry : JsError → Nat → Bool) (onRetry : JsError → Nat → ℤ → Option JsError)
    (delay : Nat → ℤ) (maxAttempts : Nat) :
    Nat → Nat → Except JsError α × List (JsError × Nat × ℤ)
  | 0, _ => (.error { message := "undefined", status := none }, [])
  | fuel + 1, attempt =>
    match fn attempt with
    | .ok v => (.ok v, [])
    | .error e =>
      if attempt = maxAttempts then (.error e, [])
      else if shouldRetry e attempt = false then (.error e, [])
      else
        let delayMs := delay attempt
        match onRetry e attempt delayMs with
        | some ex => (.error ex, [(e, attempt, delayMs)])
        | none =>
          let rest := retryGo fn shouldRetry onRetry delay maxAttempts fuel (attempt + 1)
          (rest.1, (e, attempt, delayMs) :: rest.2)

/-- `retry` from `retry.ts`: resolve
`shouldRetry = options.shouldRetry ?? defaultShouldRetry`, compute each
wait via `calculateDelay` with that attempt's `Math.random()` draw
(`rand attempt`), and run the attempt loop. -/
def retry {α : Type} (fn : Nat → Except JsError α)
    (shouldRetryOpt : Option (JsError → Nat → Bool))
    (onRetry : JsError → Nat → ℤ → Option JsError)
    (options : RetryOptions) (rand : Nat → ℚ) :
    Except JsError α × List (JsError × Nat × ℤ) :=
  retryGo fn (shouldRetryOpt.getD defaultShouldRetry) onRetry
    (fun attempt => calculateDelay attempt options (rand attempt))
    options.maxAttempts options.maxAttempts 1

/-- C7: without jitter the delay is
`floor(min(initialDelay * multiplier^(attempt-1), maxDelay))`; with
jitter it is `floor(d + d*r)` for that capped (unfloored) `d` and the
random draw `r`; the delay is a function of the draw alone (same draw,
same delay, so a seeded source reproduces runs exactly); and for a draw
in [0,1) the jittered delay lies between `floor(d)` and `floor(2d)`. -/
theorem calculateDelay_spec :
    (∀ (attempt : Nat) (options : RetryOptions) (r : ℚ),
      options.jitter = false →
      calculateDelay attempt options r =
        ⌊min (options.initialDelayMs * options.backoffMultiplier ^ (attempt - 1))
          options.maxDelayMs⌋) ∧
    (∀ (attempt : Nat) (options : RetryOptions) (r : ℚ),
      options.jitter = true →
      calculateDelay attempt options r =
        ⌊min (options.initialDelayMs * options.backoffMultiplier ^ (attempt - 1))
            options.maxDelayMs +
          min (options.initialDelayMs * options.backoffMultiplier ^ (attempt - 1))
            options.maxDelayMs * r⌋) ∧
    (∀ (attempt : Nat) (options : RetryOptions) (r1 r2 : ℚ),
      r1 = r2 → calculateDelay attempt options r1 = calculateDelay attempt options r2) ∧
    (∀ (attempt : Nat) (options : RetryOptions) (r : ℚ),
      options.jitter = true → 0 ≤ r → r < 1 →
      0 ≤ min (options.initialDelayMs * options.backoffMultiplier ^ (attempt - 1))
        options.maxDelayMs →
      ⌊min (options.initialDelayMs * options.backoffMultiplier ^ (attempt - 1))
          options.maxDelayMs⌋ ≤ calculateDelay attempt options r ∧
        calculateDelay attempt options r ≤
          ⌊2 * min (options.initialDelayMs * options.backoffMultiplier ^ (attempt - 1))
            options.maxDelayMs⌋) := by
  refine ⟨fun attempt options r hj => ?_, fun attempt options r hj => ?_,
    fun attempt options r1 r2 hr => by rw [hr], fun attempt options r hj hr0 hr1 hd => ?_⟩
  · unfold calculateDelay
    rw [hj]
    simp
  · unfold calculateDelay
    rw [hj]
    simp
  · unfold calculateDelay
    rw [hj]
    simp only [if_true]
    set d := min (options.initialDelayMs * options.backoffMultiplier ^ (attempt - 1))
      options.maxDelayMs with hdd
    constructor
    · exact Int.floor_le_floor (by nlinarith)
    · exact Int.floor_le_floor (by nlinarith)

/-- Witness for `calculateDelay_spec`: all four parts applied at
attempt 1 with the source default options (and jitter toggled off for
the first part), random draw 0. -/
theorem calculateDelay_spec_witness :
    (calculateDelay 1 { DEFAULT_OPTIONS with jitter := false } 0 =
      ⌊min ((1000 : ℚ) * 2 ^ (1 - 1)) 30000⌋) ∧
    (calculateDelay 1 DEFAULT_OPTIONS 0 =
      ⌊min ((1000 : ℚ) * 2 ^ (1 - 1)) 30000 + min ((1000 : ℚ) * 2 ^ (1 - 1)) 30000 * 0⌋) ∧
    (calculateDelay 2 DEFAULT_OPTIONS 0 = calculateDelay 2 DEFAULT_OPTIONS 0) ∧
    (⌊min ((1000 : ℚ) * 2 ^ (1 - 1)) 30000⌋ ≤ calculateDelay 1 DEFAULT_OPTIONS 0 ∧
      calculateDelay 1 DEFAULT_OPTIONS 0 ≤ ⌊2 * min ((1000 : ℚ) * 2 ^ (1 - 1)) 30000⌋) :=
  ⟨calculateDelay_spec.1 1 { DEFAULT_OPTIONS with jitter := false } 0 rfl,
   calculateDelay_spec.2.1 1 DEFAULT_OPTIONS 0 rfl,
   calculateDelay_spec.2.2.1 2 DEFAULT_OPTIONS 0 0 rfl,
   calculateDelay_spec.2.2.2 1 DEFAULT_OPTIONS 0 rfl (by norm_num) (by norm_num)
     (by norm_num [DEFAULT_OPTIONS])⟩

theorem retryGo_ok {α : Type} (fn : Nat → Except JsError α)
    (shouldRetry : JsError → Nat → Bool) (onRetry : JsError → Nat → ℤ → Option JsError)
    (delay : Nat → ℤ) (maxAttempts : Nat)
    (honone : ∀ e a d, onRetry e a d = none) (err : Nat → JsError) (v : α) :
    ∀ (k attempt fuel : Nat),
      fuel = maxAttempts + 1 - attempt →
      1 ≤ attempt →
      attempt + k ≤ maxAttempts →
      (∀ i, attempt ≤ i → i < attempt + k → fn i = .error (err i)) →
      (∀ i, attempt ≤ i → i < attempt + k → shouldRetry (err i) i = true) →
      fn (attempt + k) = .ok v →
      retryGo fn shouldRetry onRetry delay maxAttempts fuel attempt =
        (.ok v, (List.range' attempt k).map (fun i => (err i, i, delay i))) := by
  intro k
  induction k with
  | zero =>
    intro attempt fuel hfuel h1 hle hfail hsr hok
    obtain ⟨n, rfl⟩ : ∃ n, fuel = n + 1 := ⟨maxAttempts - attempt, by omega⟩
    rw [retryGo]
    rw [Nat.add_zero] at hok
    rw [hok]
    simp [List.range']
  | succ k ih =>
    intro attempt fuel hfuel h1 hle hfail hsr hok
    obtain ⟨n, rfl⟩ : ∃ n, fuel = n + 1 := ⟨maxAttempts - attempt, by omega⟩
    rw [retryGo, hfail attempt le_rfl (by omega)]
    dsimp only
    rw [if_neg (by omega), if_neg (by simp [hsr attempt le_rfl (by omega)]), honone]
    dsimp only
    have hok' : fn (attempt + 1 + k) = .ok v := by
      rw [show attempt + 1 + k = attempt + (k + 1) by omega]
      exact hok
    rw [ih (attempt + 1) n (by omega) (by omega) (by omega)
      (fun i hi1 hi2 => hfail i (by omega) (by omega))
      (fun i hi1 hi2 => hsr i (by omega) (by omega)) hok']
    simp [List.range'_succ]

theorem retryGo_err {α : Type} (fn : Nat → Except JsError α)
    (shouldRetry : JsError → Nat → Bool) (onRetry : JsError → Nat → ℤ → Option JsError)
    (delay : Nat → ℤ) (maxAttempts : Nat)
    (honone : ∀ e a d, onRetry e a d = none) (err : Nat → JsError) :
    ∀ (fuel attempt : Nat),
      fuel = maxAttempts + 1 - attempt →
      1 ≤ attempt →
      attempt ≤ maxAttempts →
      (∀ i, attempt ≤ i → i ≤ maxAttempts → fn i = .error (err i)) →
      (∀ i, attempt ≤ i → i < maxAttempts → shouldRetry (err i) i = true) →
      (retryGo fn shouldRetry onRetry delay maxAttempts fuel attempt).1 =
        .error (err maxAttempts) := by
  intro fuel
  induction fuel with
  | zero =>
    intro attempt hfuel h1 hle hfail hsr
    omega
  | succ n ih =>
    intro attempt hfuel h1 hle hfail hsr
    rw [retryGo, hfail attempt le_rfl hle]
    dsimp only
    by_cases heq : attempt = maxAttempts
    · rw [if_pos heq, heq]
    · rw [if_neg heq, if_neg (by simp [hsr attempt le_rfl (by omega)]), honone]
      dsimp only
      exact ih (attempt + 1) (by omega) (by omega) (by omega)
        (fun i hi1 hi2 => hfail i (by omega) hi2)
        (fun i hi1 hi2 => hsr i (by omega) hi2)

/-- C5: under the default retry policy, an error the default classifier
rejects is rethrown immediately with no callback invocation; `k`
retryable failures followed by a success within the attempt budget
return the success value with the callback invoked exactly `k` times;
and when all `maxAttempts` attempts fail (earlier ones retryably), the
last attempt's error is rethrown unmodified. -/
theorem retry_default_policy :
    (∀ (α : Type) (fn : Nat → Except JsError α)
      (onRetry : JsError → Nat → ℤ → Option JsError) (options : RetryOptions)
      (rand : Nat → ℚ) (e : JsError),
      1 ≤ options.maxAttempts → fn 1 = .error e → defaultShouldRetry e 1 = false →
      retry fn none onRetry options rand = (.error e, [])) ∧
    (∀ (α : Type) (fn : Nat → Except JsError α)
      (onRetry : JsError → Nat → ℤ → Option JsError) (options : RetryOptions)
      (rand : Nat → ℚ) (err : Nat → JsError) (k : Nat) (v : α),
      (∀ e a d, onRetry e a d = none) →
      k + 1 ≤ options.maxAttempts →
      (∀ i, 1 ≤ i → i ≤ k → fn i = .error (err i)) →
      (∀ i, 1 ≤ i → i ≤ k → defaultShouldRetry (err i) i = true) →
      fn (k + 1) = .ok v →
      (retry fn none onRetry options rand).1 = .ok v ∧
      (retry fn none onRetry options rand).2.length = k) ∧
    (∀ (α : Type) (fn : Nat → Except JsError α)
      (onRetry : JsError → Nat → ℤ → Option JsError) (options : RetryOptions)
      (rand : Nat → ℚ) (err : Nat → JsError),
      (∀ e a d, onRetry e a d = none) →
      1 ≤ options.maxAttempts →
      (∀ i, 1 ≤ i → i ≤ options.maxAttempts → fn i = .error (err i)) →
      (∀ i, 1 ≤ i → i < options.maxAttempts → defaultShouldRetry (err i) i = true) →
      (retry fn none onRetry options rand).1 = .error (err options.maxAttempts)) := by
  refine ⟨?_, ?_, ?_⟩
  · intro α fn onRetry options rand e hmax hfn hfatal
    unfold retry
    simp only [Option.getD_none]
    obtain ⟨n, hn⟩ : ∃ n, options.maxAttempts = n + 1 :=
      ⟨options.maxAttempts - 1, by omega⟩
    rw [hn, retryGo, hfn]
    dsimp only
    by_cases h1 : 1 = n + 1
    · rw [if_pos h1]
    · rw [if_neg h1, if_pos hfatal]
  · intro α fn onRetry options rand err k v honone hk hfail hsr hok
    unfold retry
    simp only [Option.getD_none]
    rw [retryGo_ok fn defaultShouldRetry onRetry
      (fun attempt => calculateDelay attempt options (rand attempt)) options.maxAttempts
      honone err v k 1 options.maxAttempts (by omega) le_rfl (by omega)
      (fun i hi1 hi2 => hfail i hi1 (by omega))
      (fun i hi1 hi2 => hsr i hi1 (by omega))
      (by rw [show 1 + k = k + 1 by omega]; exact hok)]
    simp
  · intro α fn onRetry options rand err honone hmax hfail hsr
    unfold retry
    simp only [Option.getD_none]
    exact retryGo_err fn defaultShouldRetry onRetry
      (fun attempt => calculateDelay attempt options (rand attempt)) options.maxAttempts
      honone err options.maxAttempts 1 (by omega) le_rfl hmax
      (fun i hi1 hi2 => hfail i hi1 hi2)
      (fun i hi1 hi2 => hsr i hi1 hi2)

/-- A rate-limit error as the providers surface it. -/
def rateLimitError : JsError := { message := "Rate limit exceeded", status := some 429 }

/-- A call that fails with a rate-limit error on attempts 1 and 2 and
succeeds on attempt 3. -/
def fnRateLimited : Nat → Except JsError String :=
  fun attempt => if attempt ≤ 2 then .error rateLimitError else .ok "success"

/-- Witness for `retry_default_policy`: a validation error (fatal) is
rethrown with no callback call, and the rate-limit example — failures
on attempts 1 and 2, success on attempt 3, `maxAttempts = 3` — returns
the success value with the callback invoked exactly twice. -/
theorem retry_default_policy_witness :
    (retry (fun _ => (.error { message := "validation failed", status := some 400 } :
        Except JsError String))
      none (fun _ _ _ => none) DEFAULT_OPTIONS (fun _ => 0) =
      (.error { message := "validation failed", status := some 400 }, [])) ∧
    ((retry fnRateLimited none (fun _ _ _ => none) DEFAULT_OPTIONS (fun _ => 0)).1 =
      .ok "success" ∧
     (retry fnRateLimited none (fun _ _ _ => none) DEFAULT_OPTIONS (fun _ => 0)).2.length
       = 2) :=
  by
  have hrl : ∀ i, defaultShouldRetry rateLimitError i = true := by
    intro i
    unfold defaultShouldRetry
    decide
  exact ⟨retry_default_policy.1 String
      (fun _ => (.error { message := "validation failed", status := some 400 } :
        Except JsError String))
      (fun _ _ _ => none) DEFAULT_OPTIONS (fun _ => 0)
      { message := "validation failed", status := some 400 }
      (by norm_num [DEFAULT_OPTIONS]) rfl (by decide),
   retry_default_policy.2.1 String fnRateLimited (fun _ _ _ => none) DEFAULT_OPTIONS
      (fun _ => 0) (fun _ => rateLimitError) 2 "success" (fun _ _ _ => rfl)
      (by norm_num [DEFAULT_OPTIONS])
      (fun i hi1 hi2 => by unfold fnRateLimited; rw [if_pos hi2])
      (fun i hi1 hi2 => hrl i)
      (by unfold fnRateLimited; norm_num)⟩

/-- A network-class error (retryable under the default policy). -/
def networkError : JsError := { message := "network error", status := none }

/-- A distinctive error thrown by an observability callback. -/
def callbackError : JsError := { message := "callback exploded", status := none }

/-- A call that fails retryably on attempt 1 and succeeds from
attempt 2 on. -/
def fnFailsOnce : Nat → Except JsError String :=
  fun attempt => if attempt = 1 then .error networkError else .ok "done"

/-- C8 counterexample: the claim says a throwing `onRetry` callback
does not alter the executor's control flow.  It does: the callback is
invoked inside the `catch` block with no surrounding try, so its
exception propagates out of `retry`.  With a call that fails retryably
once and then succeeds, a throwing callback makes `retry` return the
callback's error instead of the success the pure-callback run
returns. -/
theorem retry_callback_throw_counterexample :
    (retry fnFailsOnce none (fun _ _ _ => some callbackError) DEFAULT_OPTIONS
      (fun _ => 0)).1 = .error callbackError ∧
    (retry fnFailsOnce none (fun _ _ _ => none) DEFAULT_OPTIONS (fun _ => 0)).1 =
      .ok "done" ∧
    (retry fnFailsOnce none (fun _ _ _ => some callbackError) DEFAULT_OPTIONS
      (fun _ => 0)).1 ≠
      (retry fnFailsOnce none (fun _ _ _ => none) DEFAULT_OPTIONS (fun _ => 0)).1 := by
  have h1 : (retry fnFailsOnce none (fun _ _ _ => some callbackError) DEFAULT_OPTIONS
      (fun _ => 0)).1 = .error callbackError := by rfl
  have h2 : (retry fnFailsOnce none (fun _ _ _ => none) DEFAULT_OPTIONS
      (fun _ => 0)).1 = .ok "done" := by rfl
  refine ⟨h1, h2, ?_⟩
  rw [h1, h2]
  simp

/-- C8 (amended): the callback receives `(error, attemptNumber,
delayMs)` before each wait — the invocation trace of a run with `k`
retried failures then success is exactly
`(err i, i, calculateDelay i options (rand i))` for `i = 1..k` — but a
callback that throws aborts the executor: its exception propagates to
the caller at once, no wait or further attempt happens, and the result
is the callback's error. -/
theorem retry_callback_contract :
    (∀ (α : Type) (fn : Nat → Except JsError α) (sr : JsError → Nat → Bool)
      (onRetry : JsError → Nat → ℤ → Option JsError) (options : RetryOptions)
      (rand : Nat → ℚ) (err : Nat → JsError) (k : Nat) (v : α),
      (∀ e a d, onRetry e a d = none) →
      k + 1 ≤ options.maxAttempts →
      (∀ i, 1 ≤ i → i ≤ k → fn i = .error (err i)) →
      (∀ i, 1 ≤ i → i ≤ k → sr (err i) i = true) →
      fn (k + 1) = .ok v →
      retry fn (some sr) onRetry options rand =
        (.ok v, (List.range' 1 k).map
          (fun i => (err i, i, calculateDelay i options (rand i))))) ∧
    (∀ (α : Type) (fn : Nat → Except JsError α) (sr : JsError → Nat → Bool)
      (onRetry : JsError → Nat → ℤ → Option JsError) (options : RetryOptions)
      (rand : Nat → ℚ) (e ex : JsError),
      fn 1 = .error e →
      1 < options.maxAttempts →
      sr e 1 = true →
      onRetry e 1 (calculateDelay 1 options (rand 1)) = some ex →
      retry fn (some sr) onRetry options rand =
        (.error ex, [(e, 1, calculateDelay 1 options (rand 1))])) := by
  constructor
  · intro α fn sr onRetry options rand err k v honone hk hfail hsr hok
    unfold retry
    simp only [Option.getD_some]
    exact retryGo_ok fn sr onRetry
      (fun attempt => calculateDelay attempt options (rand attempt)) options.maxAttempts
      honone err v k 1 options.maxAttempts (by omega) le_rfl (by omega)
      (fun i hi1 hi2 => hfail i hi1 (by omega))
      (fun i hi1 hi2 => hsr i hi1 (by omega))
      (by rw [show 1 + k = k + 1 by omega]; exact hok)
  · intro α fn sr onRetry options rand e ex hfn hmax hsr hthrow
    unfold retry
    simp only [Option.getD_some]
    obtain ⟨n, hn⟩ : ∃ n, options.maxAttempts = n + 1 :=
      ⟨options.maxAttempts - 1, by omega⟩
    rw [hn, retryGo, hfn]
    dsimp only
    rw [if_neg (by omega), if_neg (by simp [hsr]), hthrow]

/-- Witness for `retry_callback_contract`: both parts at the
one-retryable-failure-then-success call — the pure callback sees
exactly one `(error, 1, delay)` invocation and the run succeeds; the
throwing callback's error is returned at once. -/
theorem retry_callback_contract_witness :
    (retry fnFailsOnce (some (fun _ _ => true)) (fun _ _ _ => none) DEFAULT_OPTIONS
      (fun _ => 0) =
      (.ok "done", (List.range' 1 1).map
        (fun i => (networkError, i, calculateDelay i DEFAULT_OPTIONS 0)))) ∧
    (retry fnFailsOnce (some (fun _ _ => true)) (fun _ _ _ => some callbackError)
      DEFAULT_OPTIONS (fun _ => 0) =
      (.error callbackError, [(networkError, 1, calculateDelay 1 DEFAULT_OPTIONS 0)])) :=
  ⟨retry_callback_contract.1 String fnFailsOnce (fun _ _ => true) (fun _ _ _ => none)
      DEFAULT_OPTIONS (fun _ => 0) (fun _ => networkError) 1 "done" (fun _ _ _ => rfl)
      (by norm_num [DEFAULT_OPTIONS])
      (fun i hi1 hi2 => by
        have hi : i = 1 := by omega
        subst hi
        rfl)
      (fun i hi1 hi2 => rfl)
      rfl,
   retry_callback_contract.2 String fnFailsOnce (fun _ _ => true)
      (fun _ _ _ => some callbackError) DEFAULT_OPTIONS (fun _ => 0) networkError
      callbackError rfl (by norm_num [DEFAULT_OPTIONS]) rfl rfl⟩

/-- The `WorkflowStatus` union type from `shared/types/index.ts`. -/
inductive WorkflowStatus where
  | pending
  | running
  | completed
  | failed
  | cancelled
deriving Repr, DecidableEq

/-- `WorkflowJobProgress` from `workflow.queue.ts`, extended with the
`cancelled?: boolean` flag that `WorkflowQueue.cancelJob` merges into
an active job's progress to mark it for cancellation. -/
structure WorkflowJobProgress where
  iteration : Nat
  maxIterations : Nat
  currentScore : Option ℚ
  status : WorkflowStatus
  cancelled : Option Bool
deriving Repr, DecidableEq

/-- `shouldCancelJob` from `workflow.worker.ts`:
`progress?.cancelled === true`.  This helper is exported but never
invoked anywhere in the repository. -/
def shouldCancelJob (progress : Option WorkflowJobProgress) : Bool :=
  match progress with
  | some p => decide (p.cancelled = some true)
  | none => false

/-- `processWorkflowJob` from `workflow.worker.ts`, happy path: save
the initial state as `running`, run `RalphOrchestrator.execute` to
completion, then `stateStore.complete` marks the stored state
`completed`.  The `cancelRequested` argument models the cancellation
signal (the job-progress `cancelled` flag as a function of the
iteration about to start): neither the worker nor
`RalphOrchestrator.execute` ever reads it — `shouldCancelJob` is never
called — so it does not appear on the right-hand side. -/
def processWorkflowJob (gen : Option DiscriminatorFeedback → Nat → String)
    (disc : String → DiscriminatorFeedback) (stop : StopCondition)
    (maxIterations : Nat) (scoreThreshold : ℚ)
    (_cancelRequested : Nat → Bool) : WorkflowResult × WorkflowStatus :=
  (execute gen disc stop maxIterations scoreThreshold, WorkflowStatus.completed)

/-- A stop condition that never fires (stop conditions are pluggable;
this models a run where no configured predicate fires before the
iteration cap). -/
def neverStopCondition : StopCondition :=
  { name := "never", evaluate := fun _ => ⟨false, none, none⟩ }

/-- C6 evaluation at the failing input: the worker's result is
completely independent of when (or whether) cancellation is requested,
because neither `processWorkflowJob` nor the orchestrator loop ever
consults the cancellation flag (`shouldCancelJob` is never called).
Concretely, with `maxIterations = 3`, a run whose stop conditions never
fire, and cancellation requested between iteration 1 and iteration 2,
all 3 iterations are recorded and the stored status ends `completed` —
not 1 iteration with status `cancelled` as the claim requires — even
though `shouldCancelJob` itself would have reported the marked
progress as cancelled. -/
theorem worker_cancellation_ignored :
    (∀ (gen : Option DiscriminatorFeedback → Nat → String)
      (disc : String → DiscriminatorFeedback) (stop : StopCondition)
      (maxIterations : Nat) (scoreThreshold : ℚ) (c1 c2 : Nat → Bool),
      processWorkflowJob gen disc stop maxIterations scoreThreshold c1 =
        processWorkflowJob gen disc stop maxIterations scoreThreshold c2) ∧
    ((processWorkflowJob (fun _ _ => "") (fun _ => ⟨false, 1 / 2, [], "", none⟩)
        neverStopCondition 3 1 (fun i => decide (2 ≤ i))).1.iterationHistory.length
      = 3) ∧
    ((processWorkflowJob (fun _ _ => "") (fun _ => ⟨false, 1 / 2, [], "", none⟩)
        neverStopCondition 3 1 (fun i => decide (2 ≤ i))).2 =
      WorkflowStatus.completed) ∧
    (shouldCancelJob (some
      { iteration := 1, maxIterations := 3, currentScore := none,
        status := WorkflowStatus.running, cancelled := some true }) = true) := by
  refine ⟨fun gen disc stop maxIterations scoreThreshold c1 c2 => rfl, ?_, rfl, by decide⟩
  rfl

/-- JSON values as produced by `JSON.parse`. -/
inductive Json where
  | null
  | bool (b : Bool)
  | num (q : ℚ)
  | str (s : String)
  | arr (elements : List Json)
  | obj (fields : List (String × Json))

/-- Object field lookup. -/
def getField (fields : List (String × Json)) (key : String) : Option Json :=
  (fields.find? (fun field => field.1 == key)).map (fun field => field.2)

/-- Validate that every array element is a string
(`z.array(z.string())`). -/
def allStrings : List Json → Option (List String)
  | [] => some []
  | .str s :: rest => (allStrings rest).map (fun tail => s :: tail)
  | _ :: _ => none

/-- Validate the optional `reasoning` field (`z.string().optional()`):
absent is fine, a string is fine, anything else fails. -/
def validateReasoning : Option Json → Option (Option String)
  | none => some none
  | some (.str r) => some (some r)
  | some _ => none

/-- `DiscriminatorFeedbackSchema.parse` from `workflow.schema.ts`
(returning `none` where zod throws): an object with `passed` boolean,
`score` number in [0,1] (`z.number().min(0).max(1)`), `issues` a string
array, `suggestions` a string, `reasoning` an optional string. -/
def validateFeedback (j : Json) : Option DiscriminatorFeedback :=
  match j with
  | .obj fields =>
    match getField fields "passed", getField fields "score",
        getField fields "issues", getField fields "suggestions",
        validateReasoning (getField fields "reasoning") with
    | some (.bool passed), some (.num score), some (.arr issuesJson),
        some (.str suggestions), some reasoning =>
      match allStrings issuesJson with
      | some issues =>
        if 0 ≤ score ∧ score ≤ 1 then
          some { passed := passed, score := score, issues := issues,
                 suggestions := suggestions, reasoning := reasoning }
        else none
      | none => none
    | _, _, _, _, _ => none
  | _ => none

/-- Strategy 1, `tryParseDirectJson`: parse the whole trimmed response
(`jsonParse` is the `JSON.parse` oracle: `none` models a throw) and
validate; any failure yields `none`. -/
def tryParseDirectJson (jsonParse : String → Option Json)
    (response : String) : Option DiscriminatorFeedback :=
  (jsonParse response.trim).bind validateFeedback

/-- The suffix following the first occurrence of `marker`, or `none`
when the marker does not occur. -/
def afterFirst (marker : List Char) : List Char → Option (List Char)
  | [] => none
  | c :: rest =>
    if marker.isPrefixOf (c :: rest) then some ((c :: rest).drop marker.length)
    else afterFirst marker rest

/-- The characters before the first occurrence of `close`, or `none`
when `close` never occurs. -/
def captureTo (close : List Char) : List Char → Option (List Char)
  | [] => none
  | c :: rest =>
    if close.isPrefixOf (c :: rest) then some []
    else (captureTo close rest).map (fun tail => c :: tail)

/-- Content captured by the fenced-block regexes (lazy capture up to
the next closing fence): the text between the first occurrence of the
opening marker and the first triple-backtick fence after it (the
regex's `\s*` prefix is subsumed by the `.trim()` the caller applies);
`none` when the marker or a closing fence is missing — exactly when
the source regex has no match anywhere, since any later occurrence of
the opening marker itself contains a closing fence. -/
def extractFencedBlock (marker : String) (response : String) : Option String :=
  match afterFirst marker.toList response.toList with
  | none => none
  | some after =>
    match captureTo "```".toList after with
    | none => none
    | some content => some (String.mk content)

/-- Strategy 2, `tryParseCodeBlock`: try a json-labelled fenced block
first, then any generic fenced block; each candidate is trimmed,
parsed and validated, failures falling through to the next option. -/
def tryParseCodeBlock (jsonParse : String → Option Json)
    (response : String) : Option DiscriminatorFeedback :=
  let fromJsonBlock :=
    match extractFencedBlock "```json" response with
    | some content => (jsonParse content.trim).bind validateFeedback
    | none => none
  match fromJsonBlock with
  | some feedback => some feedback
  | none =>
    match extractFencedBlock "```" response with
    | some content => (jsonParse content.trim).bind validateFeedback
    | none => none

/-- The depth-counting loop of `tryExtractBalancedJson`, starting at
the first `\x7b` with depth 0: returns the characters up to and
including the matching `\x7d`, or `none` when the braces never
rebalance (`endIndex === -1`). -/
def braceScan : List Char → Int → List Char → Option (List Char)
  | [], _, _ => none
  | c :: rest, depth, acc =>
    if c = '\x7b' then
      braceScan rest (depth + 1) (acc ++ [c])
    else if c = '\x7d' then
      if depth - 1 = 0 then some (acc ++ [c])
      else braceScan rest (depth - 1) (acc ++ [c])
    else
      braceScan rest depth (acc ++ [c])

/-- Strategy 3, `tryExtractBalancedJson`: find the first opening brace
(`indexOf`), locate its matching closing brace by depth counting, and
parse/validate that substring. -/
def tryExtractBalancedJson (jsonParse : String → Option Json)
    (response : String) : Option DiscriminatorFeedback :=
  match response.toList.dropWhile (fun c => c != '\x7b') with
  | [] => none
  | afterStart =>
    match braceScan afterStart 0 [] with
    | none => none
    | some jsonChars => (jsonParse (String.mk jsonChars)).bind validateFeedback

/-- The exact binary64 value of the JavaScript literal `0.3` (the
fallback score): 5404319552844595 · 2⁻⁵⁴. -/
def dbl03 : ℚ := 5404319552844595 / 2 ^ 54

/-- `createFallbackFeedback` from `discriminator.runner.ts`: the fixed
fallback — `passed: false`, `score: 0.3`, issues describing the parse
failure, suggestions pointing toward retrying, reasoning naming a
system-side parse failure. -/
def createFallbackFeedback (_rawResponse : String) : DiscriminatorFeedback :=
  { passed := false
    score := dbl03
    issues := ["Evaluation response could not be parsed",
               "The evaluator did not return valid JSON feedback"]
    suggestions := "The system will retry the evaluation. If this persists, the workflow may need manual review."
    reasoning := some ("Parse error occurred while processing the discriminator response. " ++
      "This is a system issue, not a reflection of the content quality.") }

/-- `DiscriminatorRunner.parseResponse`: run the three strategies in
order, first success wins, otherwise return the fixed fallback.  The
function is total — the source's catch-everything strategy wrappers
mean no input can make it throw. -/
def parseResponse (jsonParse : String → Option Json)
    (response : String) : DiscriminatorFeedback :=
  match tryParseDirectJson jsonParse response with
  | some feedback => feedback
  | none =>
    match tryParseCodeBlock jsonParse response with
    | some feedback => feedback
    | none =>
      match tryExtractBalancedJson jsonParse response with
      | some feedback => feedback
      | none => createFallbackFeedback response

/-- Schema validity of a feedback value: the one semantic refinement of
`DiscriminatorFeedbackSchema` beyond its field types is
`score ∈ [0, 1]`. -/
def feedbackSchemaValid (f : DiscriminatorFeedback) : Prop :=
  0 ≤ f.score ∧ f.score ≤ 1

theorem validateFeedback_valid (j : Json) (f : DiscriminatorFeedback)
    (h : validateFeedback j = some f) : feedbackSchemaValid f := by
  cases j <;> simp only [validateFeedback] at h <;> try cases h
  next fields =>
  split at h <;> try cases h
  split at h <;> try cases h
  split at h
  · next hbound =>
    injection h with h
    subst h
    exact hbound
  · cases h

theorem bind_validateFeedback_valid {o : Option Json} {f : DiscriminatorFeedback}
    (h : o.bind validateFeedback = some f) : feedbackSchemaValid f := by
  rcases Option.bind_eq_some.mp h with ⟨j, _, hv⟩
  exact validateFeedback_valid j f hv

theorem tryParseDirectJson_valid {jsonParse : String → Option Json} {response : String}
    {f : DiscriminatorFeedback} (h : tryParseDirectJson jsonParse response = some f) :
    feedbackSchemaValid f := by
  unfold tryParseDirectJson at h
  exact bind_validateFeedback_valid h

theorem tryParseCodeBlock_valid {jsonParse : String → Option Json} {response : String}
    {f : DiscriminatorFeedback} (h : tryParseCodeBlock jsonParse response = some f) :
    feedbackSchemaValid f := by
  unfold tryParseCodeBlock at h
  dsimp only at h
  split at h
  · rename_i fb heq
    injection h with h
    subst h
    split at heq <;> try cases heq
    exact bind_validateFeedback_valid heq
  · split at h <;> try cases h
    exact bind_validateFeedback_valid h

theorem tryExtractBalancedJson_valid {jsonParse : String → Option Json}
    {response : String} {f : DiscriminatorFeedback}
    (h : tryExtractBalancedJson jsonParse response = some f) :
    feedbackSchemaValid f := by
  unfold tryExtractBalancedJson at h
  split at h <;> try cases h
  split at h <;> try cases h
  exact bind_validateFeedback_valid h

/-- C4: the response interpreter is total — for every input string (and
every behaviour of the external `JSON.parse`) it returns a
schema-valid feedback, never throwing — and whenever all three parsing
strategies fail it returns exactly the fixed fallback: `passed =
false`, `score = 0.3`, issues describing the parse failure,
suggestions pointing toward retrying, reasoning naming a system-side
parse failure. -/
theorem parseResponse_contract :
    (∀ (jsonParse : String → Option Json) (response : String),
      feedbackSchemaValid (parseResponse jsonParse response)) ∧
    (∀ (jsonParse : String → Option Json) (response : String),
      tryParseDirectJson jsonParse response = none →
      tryParseCodeBlock jsonParse response = none →
      tryExtractBalancedJson jsonParse response = none →
      parseResponse jsonParse response = createFallbackFeedback response) := by
  constructor
  · intro jsonParse response
    unfold parseResponse
    split
    · next h => exact tryParseDirectJson_valid h
    · split
      · next h => exact tryParseCodeBlock_valid h
      · split
        · next h => exact tryExtractBalancedJson_valid h
        · constructor
          · unfold createFallbackFeedback dbl03
            norm_num
          · unfold createFallbackFeedback dbl03
            norm_num
  · intro jsonParse response h1 h2 h3
    unfold parseResponse
    simp only [h1, h2, h3]

/-- Witness for `parseResponse_contract`: with a `JSON.parse` oracle
that always fails and a plain-prose response (no fences, no braces),
all three strategies fail and the interpreter returns the fixed
fallback, which is schema-valid. -/
theorem parseResponse_contract_witness :
    feedbackSchemaValid (parseResponse (fun _ => none) "The answer is 42.") ∧
    parseResponse (fun _ => none) "The answer is 42." =
      createFallbackFeedback "The answer is 42." :=
  ⟨parseResponse_contract.1 (fun _ => none) "The answer is 42.",
   parseResponse_contract.2 (fun _ => none) "The answer is 42." rfl rfl rfl⟩

/-- `StoreEntry` from `redis/client.ts`: the in-memory fallback's
value plus absolute expiry time in ms (`null` → `none`). -/
structure StoreEntry where
  value : String
  expireAt : Option Nat
deriving Repr, DecidableEq

/-- A key-value store state as a partial map (the JS `Map`; insertion
order is irrelevant to get/set/delete/has). -/
def StoreState : Type := String → Option StoreEntry

/-- The empty store. -/
def emptyStore : StoreState := fun _ => none

/-- Remove a key. -/
def removeKey (store : StoreState) (key : String) : StoreState :=
  fun k => if k = key then none else store k

/-- `InMemoryStore.set` from `redis/client.ts`:
`expireAt = ttlSeconds !== undefined ? Date.now() + ttlSeconds * 1000 : null`. -/
def memSet (store : StoreState) (now : Nat) (key value : String)
    (ttlSeconds : Option Nat) : StoreState :=
  let expireAt := ttlSeconds.map (fun t => now + t * 1000)
  fun k => if k = key then some { value := value, expireAt := expireAt } else store k

/-- `InMemoryStore.get`: missing → null; expired (`now > expireAt`) →
lazily delete and return null; otherwise the value. -/
def memGet (store : StoreState) (now : Nat) (key : String) :
    Option String × StoreState :=
  match store key with
  | none => (none, store)
  | some item =>
    match item.expireAt with
    | none => (some item.value, store)
    | some e =>
      if now > e then (none, removeKey store key)
      else (some item.value, store)

/-- `InMemoryStore.del`: `store.delete(key) ? 1 : 0` — reports 1
whenever an entry is present, even one whose TTL has already
elapsed. -/
def memDel (store : StoreState) (key : String) : Nat × StoreState :=
  match store key with
  | none => (0, store)
  | some _ => (1, removeKey store key)

/-- `InMemoryStore.exists`: like `get`, with lazy deletion, returning
0/1. -/
def memExists (store : StoreState) (now : Nat) (key : String) : Nat × StoreState :=
  match store key with
  | none => (0, store)
  | some item =>
    match item.expireAt with
    | none => (1, store)
    | some e =>
      if now > e then (0, removeKey store key)
      else (1, store)

/-- Modelled from the spec: whether a key of the networked (Redis)
tier is live — present and its TTL not yet elapsed.  The spec promises
the fallback map has "equivalent TTL semantics" to the networked
store, whose code is not part of this repository; a TTL-bounded store
treats a key whose TTL has elapsed as absent for every operation. -/
def specLive (store : StoreState) (now : Nat) (key : String) : Bool :=
  match store key with
  | none => false
  | some item =>
    match item.expireAt with
    | none => true
    | some e => decide (¬ now > e)

/-- Modelled from the spec: networked-tier GET — the value iff the key
is live. -/
def specGet (store : StoreState) (now : Nat) (key : String) : Option String :=
  match store key with
  | none => none
  | some item =>
    match item.expireAt with
    | none => some item.value
    | some e => if now > e then none else some item.value

/-- Modelled from the spec: networked-tier SET with TTL — identical
write semantics to the fallback. -/
def specSet (store : StoreState) (now : Nat) (key value : String)
    (ttlSeconds : Option Nat) : StoreState :=
  memSet store now key value ttlSeconds

/-- Modelled from the spec: networked-tier DEL — removes the key and
reports 1 iff a live key was deleted (an expired key is absent, so
deleting it reports 0). -/
def specDel (store : StoreState) (now : Nat) (key : String) : Nat × StoreState :=
  (if specLive store now key then 1 else 0, removeKey store key)

/-- Modelled from the spec: networked-tier EXISTS — 1 iff live. -/
def specExists (store : StoreState) (now : Nat) (key : String) : Nat × StoreState :=
  (if specLive store now key then 1 else 0, store)

/-- One store operation of the claim (save, get, delete, existence
check), as issued through the `ResilientRedisClient` interface. -/
inductive StoreOp where
  | save (key value : String) (ttlSeconds : Option Nat)
  | get (key : String)
  | del (key : String)
  | check (key : String)
deriving Repr, DecidableEq

/-- An operation's externally observable result (`set` resolves with
no value; client-level `exists` returns `count === 1`). -/
inductive StoreOutput where
  | ack
  | value (v : Option String)
  | count (n : Nat)
  | flag (b : Bool)
deriving Repr, DecidableEq

/-- Apply one operation to the fallback (`InMemoryStore`) backing. -/
def implApply (store : StoreState) (now : Nat) : StoreOp → StoreOutput × StoreState
  | .save key value ttl => (.ack, memSet store now key value ttl)
  | .get key =>
    let r := memGet store now key
    (.value r.1, r.2)
  | .del key =>
    let r := memDel store key
    (.count r.1, r.2)
  | .check key =>
    let r := memExists store now key
    (.flag (r.1 == 1), r.2)

/-- Apply one operation to the spec-modelled networked backing. -/
def specApply (store : StoreState) (now : Nat) : StoreOp → StoreOutput × StoreState
  | .save key value ttl => (.ack, specSet store now key value ttl)
  | .get key => (.value (specGet store now key), store)
  | .del key =>
    let r := specDel store now key
    (.count r.1, r.2)
  | .check key =>
    let r := specExists store now key
    (.flag (r.1 == 1), r.2)

/-- Run a timestamped operation sequence against the fallback
backing. -/
def runImpl : StoreState → List (Nat × StoreOp) → List StoreOutput × StoreState
  | store, [] => ([], store)
  | store, (now, op) :: rest =>
    let step := implApply store now op
    let tail := runImpl step.2 rest
    (step.1 :: tail.1, tail.2)

/-- Run a timestamped operation sequence against the spec-modelled
networked backing. -/
def runSpec : StoreState → List (Nat × StoreOp) → List StoreOutput × StoreState
  | store, [] => ([], store)
  | store, (now, op) :: rest =>
    let step := specApply store now op
    let tail := runSpec step.2 rest
    (step.1 :: tail.1, tail.2)

/-- Timestamps are non-decreasing from a lower bound `t` (`Date.now()`
is monotone). -/
def timesMonotoneFrom (t : Nat) : List (Nat × StoreOp) → Prop
  | [] => True
  | (now, _) :: rest => t ≤ now ∧ timesMonotoneFrom now rest

/-- The one operation the two backings can disagree on: deleting a key
the fallback still stores although its TTL has elapsed. -/
def delOk (store : StoreState) (now : Nat) : StoreOp → Prop
  | .del key => ¬ ∃ v e, store key = some { value := v, expireAt := some e } ∧ e < now
  | _ => True

/-- Every delete in the sequence targets a key that is absent,
unexpired, or TTL-free in the fallback at that moment. -/
def seqOkFrom : StoreState → List (Nat × StoreOp) → Prop
  | _, [] => True
  | store, (now, op) :: rest =>
    delOk store now op ∧ seqOkFrom (implApply store now op).2 rest

/-- Simulation relation: the two states agree pointwise, except that
the fallback may have lazily deleted an entry whose TTL elapsed before
`t` while the spec store still carries it (as a dead entry). -/
def agreeFrom (t : Nat) (impl spec : StoreState) : Prop :=
  ∀ k, impl k = spec k ∨
    (impl k = none ∧ ∃ v e, spec k = some { value := v, expireAt := some e } ∧ e < t)

theorem agreeFrom_mono {t now : Nat} {impl spec : StoreState} (ht : t ≤ now)
    (hag : agreeFrom t impl spec) : agreeFrom now impl spec := by
  intro k
  rcases hag k with h | ⟨h1, v, e, h2, h3⟩
  · exact Or.inl h
  · exact Or.inr ⟨h1, v, e, h2, by omega⟩

theorem step_agree (impl spec : StoreState) (t now : Nat) (op : StoreOp)
    (hag : agreeFrom t impl spec) (ht : t ≤ now) (hok : delOk impl now op) :
    (implApply impl now op).1 = (specApply spec now op).1 ∧
    agreeFrom now (implApply impl now op).2 (specApply spec now op).2 := by
  cases op with
  | save key value ttl =>
    refine ⟨rfl, fun k => ?_⟩
    by_cases hk : k = key
    · subst hk
      left
      simp [implApply, specApply, memSet, specSet]
    · rcases hag k with h | ⟨h1, v, e, h2, h3⟩
      · left
        simp [implApply, specApply, memSet, specSet, hk, h]
      · right
        refine ⟨by simp [implApply, memSet, hk, h1], v, e,
          by simp [specApply, specSet, memSet, hk, h2], by omega⟩
  | get key =>
    rcases hag key with hk | ⟨h1, v, e, h2, h3⟩
    · cases hentry : impl key with
      | none =>
        have hsk : spec key = none := hk ▸ hentry
        refine ⟨by simp [implApply, specApply, memGet, specGet, hentry, hsk], ?_⟩
        have hst : (implApply impl now (.get key)).2 = impl := by
          simp [implApply, memGet, hentry]
        rw [hst]
        exact agreeFrom_mono ht hag
      | some item =>
        obtain ⟨ival, iexp⟩ := item
        have hsk : spec key = some ⟨ival, iexp⟩ := hk ▸ hentry
        cases iexp with
        | none =>
          refine ⟨by simp [implApply, specApply, memGet, specGet, hentry, hsk], ?_⟩
          have hst : (implApply impl now (.get key)).2 = impl := by
            simp [implApply, memGet, hentry]
          rw [hst]
          exact agreeFrom_mono ht hag
        | some e =>
          by_cases hnow : now > e
          · refine ⟨by simp [implApply, specApply, memGet, specGet, hentry, hsk, hnow], ?_⟩
            have hst : (implApply impl now (.get key)).2 = removeKey impl key := by
              simp [implApply, memGet, hentry, hnow]
            have hsp : (specApply spec now (.get key)).2 = spec := rfl
            rw [hst, hsp]
            intro k
            by_cases hkk : k = key
            · subst hkk
              right
              exact ⟨by simp [removeKey], ival, e, hsk, by omega⟩
            · have hrm : removeKey impl key k = impl k := by simp [removeKey, hkk]
              rw [hrm]
              exact agreeFrom_mono ht hag k
          · refine ⟨by simp [implApply, specApply, memGet, specGet, hentry, hsk, hnow], ?_⟩
            have hst : (implApply impl now (.get key)).2 = impl := by
              simp [implApply, memGet, hentry, hnow]
            rw [hst]
            exact agreeFrom_mono ht hag
    · have hnow : now > e := by omega
      refine ⟨by simp [implApply, specApply, memGet, specGet, h1, h2, hnow], ?_⟩
      have hst : (implApply impl now (.get key)).2 = impl := by
        simp [implApply, memGet, h1]
      rw [hst]
      exact agreeFrom_mono ht hag
  | check key =>
    rcases hag key with hk | ⟨h1, v, e, h2, h3⟩
    · cases hentry : impl key with
      | none =>
        have hsk : spec key = none := hk ▸ hentry
        refine ⟨by simp [implApply, specApply, memExists, specExists, specLive,
          hentry, hsk], ?_⟩
        have hst : (implApply impl now (.check key)).2 = impl := by
          simp [implApply, memExists, hentry]
        rw [hst]
        exact agreeFrom_mono ht hag
      | some item =>
        obtain ⟨ival, iexp⟩ := item
        have hsk : spec key = some ⟨ival, iexp⟩ := hk ▸ hentry
        cases iexp with
        | none =>
          refine ⟨by simp [implApply, specApply, memExists, specExists, specLive,
            hentry, hsk], ?_⟩
          have hst : (implApply impl now (.check key)).2 = impl := by
            simp [implApply, memExists, hentry]
          rw [hst]
          exact agreeFrom_mono ht hag
        | some e =>
          by_cases hnow : now > e
          · refine ⟨by simp [implApply, specApply, memExists, specExists, specLive,
              hentry, hsk, hnow], ?_⟩
            have hst : (implApply impl now (.check key)).2 = removeKey impl key := by
              simp [implApply, memExists, hentry, hnow]
            have hsp : (specApply spec now (.check key)).2 = spec := rfl
            rw [hst, hsp]
            intro k
            by_cases hkk : k = key
            · subst hkk
              right
              exact ⟨by simp [removeKey], ival, e, hsk, by omega⟩
            · have hrm : removeKey impl key k = impl k := by simp [removeKey, hkk]
              rw [hrm]
              exact agreeFrom_mono ht hag k
          · refine ⟨by simp [implApply, specApply, memExists, specExists, specLive,
              hentry, hsk, hnow], ?_⟩
            have hst : (implApply impl now (.check key)).2 = impl := by
              simp [implApply, memExists, hentry, hnow]
            rw [hst]
            exact agreeFrom_mono ht hag
    · have hnow : now > e := by omega
      refine ⟨by simp [implApply, specApply, memExists, specExists, specLive,
        h1, h2, hnow], ?_⟩
      have hst : (implApply impl now (.check key)).2 = impl := by
        simp [implApply, memExists, h1]
      rw [hst]
      exact agreeFrom_mono ht hag
  | del key =>
    have hagree_removed : agreeFrom now (removeKey impl key) (removeKey spec key) := by
      intro k
      by_cases hkk : k = key
      · subst hkk
        left
        simp [removeKey]
      · have h1 : removeKey impl key k = impl k := by simp [removeKey, hkk]
        have h2 : removeKey spec key k = spec k := by simp [removeKey, hkk]
        rw [h1, h2]
        exact agreeFrom_mono ht hag k
    rcases hag key with hk | ⟨h1, v, e, h2, h3⟩
    · cases hentry : impl key with
      | none =>
        have hsk : spec key = none := hk ▸ hentry
        constructor
        · simp [implApply, specApply, memDel, specDel, specLive, hentry, hsk]
        · have hst : (implApply impl now (.del key)).2 = impl := by
            simp [implApply, memDel, hentry]
          have hsp : (specApply spec now (.del key)).2 = removeKey spec key := rfl
          rw [hst, hsp]
          intro k
          by_cases hkk : k = key
          · subst hkk
            left
            rw [hentry]
            simp [removeKey]
          · have hrm : removeKey spec key k = spec k := by simp [removeKey, hkk]
            rw [hrm]
            exact agreeFrom_mono ht hag k
      | some item =>
        obtain ⟨ival, iexp⟩ := item
        have hsk : spec key = some ⟨ival, iexp⟩ := hk ▸ hentry
        have hlive : specLive spec now key = true := by
          cases iexp with
          | none => simp [specLive, hsk]
          | some e =>
            have hne : ¬ e < now := fun hc => hok ⟨ival, e, hentry, hc⟩
            simp [specLive, hsk]
            omega
        constructor
        · simp [implApply, specApply, memDel, specDel, hentry, hlive]
        · have hst : (implApply impl now (.del key)).2 = removeKey impl key := by
            simp [implApply, memDel, hentry]
          have hsp : (specApply spec now (.del key)).2 = removeKey spec key := rfl
          rw [hst, hsp]
          exact hagree_removed
    · have hnow : now > e := by omega
      have hlive : specLive spec now key = false := by
        simp [specLive, h2]
        omega
      constructor
      · simp [implApply, specApply, memDel, specDel, h1, hlive]
      · have hst : (implApply impl now (.del key)).2 = impl := by
          simp [implApply, memDel, h1]
        have hsp : (specApply spec now (.del key)).2 = removeKey spec key := rfl
        rw [hst, hsp]
        intro k
        by_cases hkk : k = key
        · subst hkk
          left
          rw [h1]
          simp [removeKey]
        · have hrm : removeKey spec key k = spec k := by simp [removeKey, hkk]
          rw [hrm]
          exact agreeFrom_mono ht hag k

theorem runs_agree : ∀ (ops : List (Nat × StoreOp)) (t : Nat) (impl spec : StoreState),
    agreeFrom t impl spec → timesMonotoneFrom t ops → seqOkFrom impl ops →
    (runImpl impl ops).1 = (runSpec spec ops).1 := by
  intro ops
  induction ops with
  | nil =>
    intro t impl spec _ _ _
    rfl
  | cons hd rest ih =>
    obtain ⟨now, op⟩ := hd
    intro t impl spec hag hmono hok
    obtain ⟨ht, hmono2⟩ := hmono
    obtain ⟨hdel, hok2⟩ := hok
    obtain ⟨hout, hag2⟩ := step_agree impl spec t now op hag ht hdel
    rw [runImpl, runSpec]
    dsimp only
    rw [hout, ih now _ _ hag2 hmono2 hok2]

/-- `WorkflowState` from `workflow-state.store.ts` (the snapshot the
store persists). -/
structure WorkflowState where
  id : String
  status : WorkflowStatus
  task : String
  criteria : List String
  currentIteration : Nat
  maxIterations : Nat
  scoreThreshold : ℚ
  currentOutput : Option String
  lastFeedback : Option DiscriminatorFeedback
  currentScore : Option ℚ
  iterations : List IterationState
  startedAt : String
  updatedAt : String
  completedAt : Option String
  stopReason : Option String
  errorMessage : Option String
  generatorModel : Option String
  discriminatorModel : Option String
deriving Repr, DecidableEq

/-- `WorkflowStateStore.getKey`: the default key prefix plus the
workflow id. -/
def wsKey (workflowId : String) : String := "workflow:state:" ++ workflowId

/-- `DEFAULT_TTL_SECONDS` (24 hours). -/
def DEFAULT_TTL_SECONDS : Nat := 24 * 60 * 60

/-- `WorkflowStateStore.save` over the fallback backing:
`redis.set(key, JSON.stringify(state), ttlSeconds)`; `encode` is the
`JSON.stringify` oracle. -/
def wsSaveImpl (encode : WorkflowState → String) (ttlSeconds : Nat)
    (store : StoreState) (now : Nat) (state : WorkflowState) : StoreState :=
  memSet store now (wsKey state.id) (encode state) (some ttlSeconds)

/-- `WorkflowStateStore.get` over the fallback backing: read the key,
`JSON.parse` (`decode`; `none` models the caught parse error →
`null`). -/
def wsGetImpl (decode : String → Option WorkflowState) (store : StoreState)
    (now : Nat) (workflowId : String) : Option WorkflowState × StoreState :=
  let r := memGet store now (wsKey workflowId)
  match r.1 with
  | none => (none, r.2)
  | some data => (decode data, r.2)

/-- `WorkflowStateStore.save` over the spec-modelled networked
backing. -/
def wsSaveSpec (encode : WorkflowState → String) (ttlSeconds : Nat)
    (store : StoreState) (now : Nat) (state : WorkflowState) : StoreState :=
  specSet store now (wsKey state.id) (encode state) (some ttlSeconds)

/-- `WorkflowStateStore.get` over the spec-modelled networked
backing. -/
def wsGetSpec (decode : String → Option WorkflowState) (store : StoreState)
    (now : Nat) (workflowId : String) : Option WorkflowState × StoreState :=
  match specGet store now (wsKey workflowId) with
  | none => (none, store)
  | some data => (decode data, store)

/-- C9 counterexample: the sequence "save snapshot a with TTL 1s at
t=0ms, delete a at t=2000ms" is observably different on the two
backings: the fallback's `del` returns `store.delete(key) ? 1 : 0` and
reports 1 for the entry it still holds although the TTL elapsed at
t=1000ms, while a networked store with TTL semantics (the key expired,
hence absent) reports 0 deleted keys. -/
theorem store_backing_counterexample :
    (runImpl emptyStore
      [(0, .save (wsKey "a") "snapshot" (some 1)), (2000, .del (wsKey "a"))]).1 =
      [.ack, .count 1] ∧
    (runSpec emptyStore
      [(0, .save (wsKey "a") "snapshot" (some 1)), (2000, .del (wsKey "a"))]).1 =
      [.ack, .count 0] ∧
    (runImpl emptyStore
      [(0, .save (wsKey "a") "snapshot" (some 1)), (2000, .del (wsKey "a"))]).1 ≠
    (runSpec emptyStore
      [(0, .save (wsKey "a") "snapshot" (some 1)), (2000, .del (wsKey "a"))]).1 := by
  refine ⟨rfl, rfl, ?_⟩
  intro h
  rw [show (runImpl emptyStore
      [(0, .save (wsKey "a") "snapshot" (some 1)), (2000, .del (wsKey "a"))]).1 =
      [.ack, .count 1] from rfl] at h
  rw [show (runSpec emptyStore
      [(0, .save (wsKey "a") "snapshot" (some 1)), (2000, .del (wsKey "a"))]).1 =
      [.ack, .count 0] from rfl] at h
  simp at h

/-- C9 (amended): for every timestamped sequence of save / get /
delete / existence-check operations with non-decreasing times in which
no delete targets a key the fallback still stores with an elapsed TTL,
the externally observable outputs of the fallback map and of the
spec-modelled networked store are identical; and for every snapshot, a
save followed immediately by a get of the same id returns the saved
snapshot in both backings (given the `JSON.stringify`/`JSON.parse`
round trip on that snapshot). -/
theorem store_backing_equivalence :
    (∀ (ops : List (Nat × StoreOp)) (t : Nat),
      timesMonotoneFrom t ops → seqOkFrom emptyStore ops →
      (runImpl emptyStore ops).1 = (runSpec emptyStore ops).1) ∧
    (∀ (encode : WorkflowState → String) (decode : String → Option WorkflowState)
      (ttlSeconds : Nat) (store : StoreState) (now : Nat) (snapshot : WorkflowState),
      decode (encode snapshot) = some snapshot →
      (wsGetImpl decode (wsSaveImpl encode ttlSeconds store now snapshot) now
        snapshot.id).1 = some snapshot ∧
      (wsGetSpec decode (wsSaveSpec encode ttlSeconds store now snapshot) now
        snapshot.id).1 = some snapshot) := by
  constructor
  · intro ops t hmono hok
    exact runs_agree ops t emptyStore emptyStore (fun k => Or.inl rfl) hmono hok
  · intro encode decode ttlSeconds store now snapshot hround
    have hexp : ¬ now > now + ttlSeconds * 1000 := by omega
    constructor
    · have hlook : memGet (wsSaveImpl encode ttlSeconds store now snapshot) now
          (wsKey snapshot.id) =
          (some (encode snapshot), wsSaveImpl encode ttlSeconds store now snapshot) := by
        unfold wsSaveImpl memSet memGet
        simp [hexp]
      unfold wsGetImpl
      rw [hlook]
      dsimp only
      rw [hround]
    · have hlook : specGet (wsSaveSpec encode ttlSeconds store now snapshot) now
          (wsKey snapshot.id) = some (encode snapshot) := by
        unfold wsSaveSpec specSet memSet specGet
        simp [hexp]
      unfold wsGetSpec
      rw [hlook]
      dsimp only
      rw [hround]

/-- A minimal concrete snapshot. -/
def snapshotW : WorkflowState :=
  { id := "a", status := .pending, task := "t", criteria := [],
    currentIteration := 0, maxIterations := 1, scoreThreshold := 1,
    currentOutput := none, lastFeedback := none, currentScore := none,
    iterations := [], startedAt := "s", updatedAt := "s", completedAt := none,
    stopReason := none, errorMessage := none, generatorModel := none,
    discriminatorModel := none }

/-- Witness for `store_backing_equivalence`: a concrete monotone
save/get/get/check sequence produces identical outputs on both
backings, and save-then-get of a concrete snapshot returns it in both
backings under a round-tripping codec. -/
theorem store_backing_equivalence_witness :
    ((runImpl emptyStore
      [(0, .save (wsKey "a") "snapshot" (some 1)), (500, .get (wsKey "a")),
       (2000, .get (wsKey "a")), (2500, .check (wsKey "a"))]).1 =
     (runSpec emptyStore
      [(0, .save (wsKey "a") "snapshot" (some 1)), (500, .get (wsKey "a")),
       (2000, .get (wsKey "a")), (2500, .check (wsKey "a"))]).1) ∧
    ((wsGetImpl (fun _ => some snapshotW)
        (wsSaveImpl (fun _ => "enc") DEFAULT_TTL_SECONDS emptyStore 0 snapshotW) 0
        snapshotW.id).1 = some snapshotW ∧
     (wsGetSpec (fun _ => some snapshotW)
        (wsSaveSpec (fun _ => "enc") DEFAULT_TTL_SECONDS emptyStore 0 snapshotW) 0
        snapshotW.id).1 = some snapshotW) :=
  ⟨store_backing_equivalence.1
      [(0, .save (wsKey "a") "snapshot" (some 1)), (500, .get (wsKey "a")),
       (2000, .get (wsKey "a")), (2500, .check (wsKey "a"))] 0
      (by simp [timesMonotoneFrom])
      (by simp [seqOkFrom, delOk]),
   store_backing_equivalence.2 (fun _ => "enc") (fun _ => some snapshotW)
      DEFAULT_TTL_SECONDS emptyStore 0 snapshotW rfl⟩

end Barto
